import Mathlib

/-
  Verification of the NDN (Named Data Network) node implementation
  (src/objects.c, src/network.c, src/commands.c, src/ndn.h).

  The C code mutates a global Node; here each C function is embedded as a
  pure Lean function from the touched parts of that global state (plus
  oracle arguments for socket I/O results: connect results and write
  success) to the new state together with the list of messages written to
  peer sockets.  Machine integers are modelled as Int / Nat (no overflow is
  reachable in the modelled quantities), C strings as Lean String
  (byte-exact equality, matching strcmp), linked lists as List (head of the
  Lean list = head of the C list), and the int[MAX_INTERFACE] state array
  of an interest entry as a function from Nat to Int (the C code only ever
  reads indices 0 .. MAX_INTERFACE-1).
-/

/-- MAX_INTERFACE from ndn.h. -/
def MAX_INTERFACE : Nat := 10

/-- MAX_OBJECT_NAME from ndn.h. -/
def MAX_OBJECT_NAME : Nat := 100

/-- INTEREST_TIMEOUT from ndn.h (seconds). -/
def INTEREST_TIMEOUT : Int := 10

/-- enum interface_state RESPONSE = 0 (ndn.h). -/
def RESPONSE : Int := 0

/-- enum interface_state WAITING = 1 (ndn.h). -/
def WAITING : Int := 1

/-- enum interface_state CLOSED = 2 (ndn.h). -/
def CLOSED : Int := 2

/-- A TCP peer-protocol message, as written by the send functions of
network.c (send_entry_message, send_object_message, send_noobject_message,
and the inline SAFE / ENTRY / INTEREST snprintf+write calls). -/
inductive Msg where
  | entry : String → String → Msg
  | safe : String → String → Msg
  | interest : String → Msg
  | object : String → Msg
  | noobject : String → Msg
deriving DecidableEq

/-- struct neighbor (ndn.h): ip, port, fd, interface_id.  The per-connection
receive buffer is not relevant to the claims modelled here. -/
structure Neighbor where
  ip : String
  port : String
  fd : Int
  interfaceId : Nat
deriving DecidableEq

/-- struct interest_entry (ndn.h): name, interface_states[MAX_INTERFACE]
(modelled as a total function, read only at 0..9 by the code), timestamp,
marked_for_removal. -/
structure InterestEntry where
  name : String
  states : Nat → Int
  timestamp : Int
  markedForRemoval : Bool

/-- Writing one cell of the interface_states array. -/
def setState (f : Nat → Int) (i : Nat) (v : Int) : Nat → Int :=
  fun j => if j = i then v else f j

/-- The cache-related fields of the global node: node.cache,
node.current_cache_size, node.cache_size. -/
structure CacheState where
  cache : List String
  currentCacheSize : Int
  cacheSize : Int
deriving DecidableEq

/-- Result of add_to_cache: either the process aborts via
exit(EXIT_FAILURE) (the final size check of add_to_cache), or a new cache
state together with the C return value. -/
inductive CacheResult where
  | aborted : CacheResult
  | ok : CacheState → Int → CacheResult
deriving DecidableEq

/-- Models strncpy(dst, name, MAX_OBJECT_NAME) followed by the forced NUL
at index MAX_OBJECT_NAME in add_to_cache: the stored copy of the name is
truncated to at most MAX_OBJECT_NAME characters. -/
def strncpy100 (s : String) : String :=
  if s.length ≤ MAX_OBJECT_NAME then s else String.mk (s.toList.take MAX_OBJECT_NAME)

/-- The eviction loop of add_to_cache (objects.c lines 102-119):
while (current_cache_size >= cache_size) evict the head (oldest) cache
entry; if the cache runs empty while the size still says full, reset the
size counter to 0 and break. -/
def evictLoop (cacheSize : Int) : List String → Int → List String × Int
  | [], cur => if cur ≥ cacheSize then ([], 0) else ([], cur)
  | x :: rest, cur =>
    if cur ≥ cacheSize then evictLoop cacheSize rest (cur - 1)
    else (x :: rest, cur)

/-- add_to_cache (objects.c).  Rejects empty names (the NULL check is not
representable; empty string covers strlen(name)==0), is a no-op on a cache
hit, otherwise evicts until the size is below capacity, appends the
(truncated) name at the tail and increments the size; if the final size
check current_cache_size > cache_size fires, the process exits
(CacheResult.aborted).  malloc is assumed to succeed. -/
def add_to_cache (cs : CacheState) (name : String) : CacheResult :=
  if name.length = 0 then CacheResult.ok cs (-1)
  else if name ∈ cs.cache then CacheResult.ok cs 0
  else
    let ec := evictLoop cs.cacheSize cs.cache cs.currentCacheSize
    let c2 := ec.1 ++ [strncpy100 name]
    let cur2 := ec.2 + 1
    if cs.cacheSize < cur2 then CacheResult.aborted
    else CacheResult.ok ⟨c2, cur2, cs.cacheSize⟩ 0

/-- add_object (objects.c): returns the store unchanged with 0 if the name
already exists, else prepends it (new_object->next = node.objects).
malloc is assumed to succeed. -/
def add_object (objects : List String) (name : String) : List String × Int :=
  if name ∈ objects then (objects, 0) else (name :: objects, 0)

/-- remove_object (objects.c): removes the first list node whose name
matches and returns 0, or returns -1 when not found. -/
def remove_object : List String → String → List String × Int
  | [], _ => ([], -1)
  | o :: rest, name =>
    if o = name then (rest, 0)
    else
      let r := remove_object rest name
      (o :: r.1, r.2)

/-- The fresh interest entry built by find_or_create_interest_entry
(objects.c lines 399-418): all interface states initialized to 0,
timestamp set to the current time, not marked for removal. -/
def freshEntry (t : Int) (name : String) : InterestEntry :=
  ⟨name, fun _ => 0, t, false⟩

/-- find_or_create_interest_entry (objects.c): returns the table unchanged
when an entry with this name exists, otherwise prepends a fresh entry
(entry->next = node.interest_table). -/
def find_or_create_interest_entry (t : Int) (table : List InterestEntry) (name : String) :
    List InterestEntry :=
  if table.any (fun e => e.name == name) then table else freshEntry t name :: table

/-- remove_interest_entry (objects.c): removes the first entry whose name
matches, returning 0; -1 when not found. -/
def remove_interest_entry : List InterestEntry → String → List InterestEntry × Int
  | [], _ => ([], -1)
  | e :: rest, name =>
    if e.name = name then (rest, 0)
    else
      let r := remove_interest_entry rest name
      (e :: r.1, r.2)

/-- The lookup loop shared by handle_interest_message,
handle_object_message and handle_noobject_message: find the (first)
neighbor record owning a file descriptor. -/
def findNeighborByFd (neighbors : List Neighbor) (fd : Int) : Option Neighbor :=
  neighbors.find? (fun n => n.fd == fd)

/-- The lookup loop used when forwarding: find the (first) neighbor record
with a given interface id. -/
def findNeighborByIface (neighbors : List Neighbor) (i : Nat) : Option Neighbor :=
  neighbors.find? (fun n => n.interfaceId == i)

/-- The topology-related fields of the global node (ndn.h struct node):
own listening address, external neighbor, safety node, in_network flag,
network id, neighbor list and internal-neighbor list. -/
structure NodeState where
  ip : String
  port : String
  extNeighborIp : String
  extNeighborPort : String
  safeNodeIp : String
  safeNodePort : String
  inNetwork : Bool
  networkId : Int
  neighbors : List Neighbor
  internalNeighbors : List Neighbor
deriving DecidableEq

/-- The id-computation step of add_neighbor (network.c lines 1576-1586):
if (curr->interface_id >= interface_id) interface_id = curr->interface_id + 1. -/
def idStep (acc : Nat) (n : Neighbor) : Nat :=
  if acc ≤ n.interfaceId then n.interfaceId + 1 else acc

/-- The interface id add_neighbor assigns: start at 1 and walk the current
neighbor list head to tail. -/
def nextInterfaceId (neighbors : List Neighbor) : Nat :=
  neighbors.foldl idStep 1

/-- add_neighbor (network.c): allocate a record with the next interface id,
prepend it to node.neighbors, and if it is not external also prepend a copy
to node.internal_neighbors.  malloc is assumed to succeed. -/
def add_neighbor (st : NodeState) (ip port : String) (fd : Int) (isExternal : Bool) :
    NodeState :=
  let nb : Neighbor := ⟨ip, port, fd, nextInterfaceId st.neighbors⟩
  let st1 := { st with neighbors := nb :: st.neighbors }
  if isExternal then st1
  else { st1 with internalNeighbors := nb :: st1.internalNeighbors }

/-- Removal of the first list node with a given fd (used for both the
neighbor list and the internal-neighbor list in remove_neighbor). -/
def removeFirstByFd : List Neighbor → Int → List Neighbor
  | [], _ => []
  | n :: rest, fd => if n.fd = fd then rest else n :: removeFirstByFd rest fd

/-- update_and_propagate_safety_node (network.c): send
SAFE ext_neighbor_ip ext_neighbor_port to every internal neighbor. -/
def update_and_propagate_safety_node (st : NodeState) : List (Int × Msg) :=
  st.internalNeighbors.map (fun n => (n.fd, Msg.safe st.extNeighborIp st.extNeighborPort))

/-- remove_neighbor (network.c lines 1628-1809).  connectResult is the
oracle for connect_to_node (none = failure), entryWriteOk for the ENTRY
write.  Returns the new node state, the messages written, and the C return
value. -/
def remove_neighbor (st : NodeState) (fd : Int) (connectResult : Option Int)
    (entryWriteOk : Bool) : NodeState × List (Int × Msg) × Int :=
  match findNeighborByFd st.neighbors fd with
  | none => (st, [], -1)
  | some removed =>
    let st1 := { st with
      neighbors := removeFirstByFd st.neighbors fd
      internalNeighbors := removeFirstByFd st.internalNeighbors fd }
    if removed.ip = st.extNeighborIp ∧ removed.port = st.extNeighborPort then
      let safetyDisconnected :=
        st.safeNodeIp = removed.ip ∧ st.safeNodePort = removed.port
      let selfIsSafety := st.safeNodeIp = st.ip ∧ st.safeNodePort = st.port
      if ¬selfIsSafety ∧ ¬safetyDisconnected then
        match connectResult with
        | none => (st1, [], -1)
        | some newFd =>
          let st2 := { st1 with
            extNeighborIp := st.safeNodeIp
            extNeighborPort := st.safeNodePort }
          let st3 := add_neighbor st2 st.safeNodeIp st.safeNodePort newFd true
          if entryWriteOk then
            (st3, (newFd, Msg.entry st.ip st.port) :: update_and_propagate_safety_node st3, 0)
          else (st3, [(newFd, Msg.entry st.ip st.port)], -1)
      else
        match st1.internalNeighbors with
        | chosen :: _ =>
          let st2 := { st1 with
            extNeighborIp := chosen.ip
            extNeighborPort := chosen.port
            safeNodeIp := st.ip
            safeNodePort := st.port }
          if entryWriteOk then
            (st2, (chosen.fd, Msg.entry st.ip st.port) :: update_and_propagate_safety_node st2, 0)
          else (st2, [(chosen.fd, Msg.entry st.ip st.port)], -1)
        | [] =>
          ({ st1 with
             extNeighborIp := ""
             extNeighborPort := ""
             safeNodeIp := ""
             safeNodePort := "" }, [], 0)
    else (st1, [], 0)

/-- The port rewrite on ENTRY (network.c lines 363-373): update the port of
the first neighbor record owning this fd. -/
def updatePortByFd : List Neighbor → Int → String → List Neighbor
  | [], _, _ => []
  | n :: rest, fd, p =>
    if n.fd = fd then { n with port := p } :: rest
    else n :: updatePortByFd rest fd p

/-- The internal-list port rewrite on ENTRY (network.c lines 392-404):
update the port of the first internal record with this ip. -/
def updatePortByIp : List Neighbor → String → String → List Neighbor
  | [], _, _ => []
  | n :: rest, ip, p =>
    if n.ip = ip then { n with port := p } :: rest
    else n :: updatePortByIp rest ip p

/-- The ENTRY branch of handle_network_events (network.c lines 353-466):
rewrite the sender's port, maintain the internal-neighbor list, adopt the
sender as external neighbor when there is none, reply with an ENTRY in
that case, and always send a SAFE message.  Note the SAFE payload is
chosen by re-testing ext_neighbor_ip AFTER it may have just been set. -/
def handle_entry_message (st : NodeState) (fd : Int) (senderIp senderPort : String) :
    NodeState × List (Int × Msg) :=
  let neighbors1 := updatePortByFd st.neighbors fd senderPort
  let alreadyInternal :=
    st.internalNeighbors.any (fun n => n.ip == senderIp && n.port == senderPort)
  let internal1 :=
    if alreadyInternal then st.internalNeighbors
    else if st.internalNeighbors.any (fun n => n.ip == senderIp) then
      updatePortByIp st.internalNeighbors senderIp senderPort
    else
      match findNeighborByFd neighbors1 fd with
      | some c => ⟨senderIp, senderPort, c.fd, c.interfaceId⟩ :: st.internalNeighbors
      | none => st.internalNeighbors
  let needEntry := st.extNeighborIp.length = 0
  let extIp := if needEntry then senderIp else st.extNeighborIp
  let extPort := if needEntry then senderPort else st.extNeighborPort
  let st1 := { st with
    neighbors := neighbors1
    internalNeighbors := internal1
    extNeighborIp := extIp
    extNeighborPort := extPort }
  let entrySends := if needEntry then [(fd, Msg.entry st.ip st.port)] else []
  let safeMsg :=
    if extIp.length = 0 then Msg.safe st.ip st.port else Msg.safe extIp extPort
  (st1, entrySends ++ [(fd, safeMsg)])

/-- The SAFE branch of handle_network_events (network.c lines 467-482):
the safety node is set verbatim from the message. -/
def handle_safe_message (st : NodeState) (safeIp safePort : String) : NodeState :=
  { st with safeNodeIp := safeIp, safeNodePort := safePort }

/-- cmd_direct_join (commands.c lines 312-379).  connectResult is the
oracle for connect_to_node, entrySendOk for send_entry_message.  The
default direct-join netid is the constant "076" (atoi = 76). -/
def cmd_direct_join (st : NodeState) (connectIp connectPort : String)
    (connectResult : Option Int) (entrySendOk : Bool) : NodeState × Int :=
  if st.inNetwork then (st, -1)
  else if connectIp = "0.0.0.0" then
    ({ st with
       networkId := 76
       inNetwork := true
       extNeighborIp := ""
       extNeighborPort := ""
       safeNodeIp := ""
       safeNodePort := "" }, 0)
  else
    match connectResult with
    | none => (st, -1)
    | some fd =>
      let st1 := { st with extNeighborIp := connectIp, extNeighborPort := connectPort }
      let st2 := add_neighbor st1 connectIp connectPort fd true
      if entrySendOk then ({ st2 with networkId := 76, inNetwork := true }, 0)
      else (st2, -1)

/-- The join path of process_nodeslist_response (network.c lines 835-885),
after a candidate has been chosen from the NODESLIST: connect, set the
external neighbor, add the neighbor record, send ENTRY, send REG and wait
for OKREG.  connectResult / entrySendOk / regOk are the oracles for these
three I/O steps.  Note the failure paths close the socket but roll back
neither the external-neighbor fields nor the neighbor record. -/
def process_nodeslist_join (st : NodeState) (netId : Int) (chosenIp chosenPort : String)
    (connectResult : Option Int) (entrySendOk regOk : Bool) : NodeState × Int :=
  match connectResult with
  | none => (st, -1)
  | some fd =>
    let st1 := { st with extNeighborIp := chosenIp, extNeighborPort := chosenPort }
    let st2 := add_neighbor st1 chosenIp chosenPort fd true
    if entrySendOk then
      if regOk then ({ st2 with networkId := netId, inNetwork := true }, 0)
      else (st2, -1)
    else (st2, -1)

/-- The forwarding loop of handle_interest_message (network.c lines
1080-1097): walk the neighbor list; for every neighbor with interface id
> 0 and different from the arrival interface, write INTEREST name and, on
write success, mark that interface WAITING and count it.  The returned
triple is (updated states, writes attempted, forwarded count). -/
def interestForwardLoop (writeOk : Int → Bool) (name : String) (k : Nat) :
    List Neighbor → (Nat → Int) → ((Nat → Int) × List (Int × Msg) × Nat)
  | [], states => (states, [], 0)
  | n :: rest, states =>
    if 0 < n.interfaceId ∧ n.interfaceId ≠ k then
      if writeOk n.fd then
        let r := interestForwardLoop writeOk name k rest
          (setState states n.interfaceId WAITING)
        (r.1, (n.fd, Msg.interest name) :: r.2.1, r.2.2 + 1)
      else
        let r := interestForwardLoop writeOk name k rest states
        (r.1, (n.fd, Msg.interest name) :: r.2.1, r.2.2)
    else interestForwardLoop writeOk name k rest states

/-- First-match in-place update of the interest entry with a given name
(the C code mutates the entry through the pointer returned by
find_or_create_interest_entry). -/
def updateEntry : List InterestEntry → String → (InterestEntry → InterestEntry) →
    List InterestEntry
  | [], _, _ => []
  | e :: rest, name, f =>
    if e.name = name then f e :: rest else e :: updateEntry rest name f

/-- Result of handle_interest_message: new interest table, messages
written, C return value. -/
structure InterestResult where
  table : List InterestEntry
  sends : List (Int × Msg)
  ret : Int

/-- handle_interest_message (network.c lines 989-1118).  t is the current
time; writeOk the per-fd write-success oracle.  Interface 0 is ignored;
a locally owned or cached name is answered with OBJECT; otherwise the
entry is found or created, the arrival interface marked RESPONSE, and if
no interface in 1..MAX_INTERFACE-1 is WAITING the interest is forwarded to
all other neighbors; with nothing forwarded a NOOBJECT is written back
(and the entry is NOT removed); otherwise the timestamp is refreshed. -/
def handle_interest_message (t : Int) (writeOk : Int → Bool) (neighbors : List Neighbor)
    (objects cache : List String) (table : List InterestEntry) (fd : Int)
    (name : String) : InterestResult :=
  match findNeighborByFd neighbors fd with
  | none => ⟨table, [], -1⟩
  | some nb =>
    if nb.interfaceId = 0 then ⟨table, [], 0⟩
    else if name ∈ objects then
      ⟨table, [(fd, Msg.object name)], if writeOk fd then 0 else -1⟩
    else if name ∈ cache then
      ⟨table, [(fd, Msg.object name)], if writeOk fd then 0 else -1⟩
    else
      let table1 := find_or_create_interest_entry t table name
      let e0 := (table1.find? (fun e => e.name == name)).getD (freshEntry t name)
      let st0 := setState e0.states nb.interfaceId RESPONSE
      if (List.range' 1 (MAX_INTERFACE - 1)).any (fun i => st0 i == WAITING) then
        ⟨updateEntry table1 name (fun e => ⟨e.name, st0, e.timestamp, e.markedForRemoval⟩),
         [], 0⟩
      else
        let r := interestForwardLoop writeOk name nb.interfaceId neighbors st0
        if r.2.2 = 0 then
          ⟨updateEntry table1 name (fun e => ⟨e.name, r.1, e.timestamp, e.markedForRemoval⟩),
           r.2.1 ++ [(fd, Msg.noobject name)], if writeOk fd then 0 else -1⟩
        else
          ⟨updateEntry table1 name (fun e => ⟨e.name, r.1, t, e.markedForRemoval⟩),
           r.2.1, 0⟩

/-- The forwarding loop of handle_object_message (network.c lines
1194-1227): for i = 1 .. MAX_INTERFACE-1, if interface i is RESPONSE, look
up the (first) neighbor with that interface id and, unless its fd was
already processed, send OBJECT name on it.  fwd is the set (list) of
already-processed fds, initialized with the source fd. -/
def objectForwardLoop (neighbors : List Neighbor) (states : Nat → Int) (name : String) :
    List Nat → List Int → List Int × List (Int × Msg)
  | [], fwd => (fwd, [])
  | i :: rest, fwd =>
    if states i = RESPONSE then
      match findNeighborByIface neighbors i with
      | some n =>
        if n.fd ∈ fwd then objectForwardLoop neighbors states name rest fwd
        else
          let r := objectForwardLoop neighbors states name rest (n.fd :: fwd)
          (r.1, (n.fd, Msg.object name) :: r.2)
      | none => objectForwardLoop neighbors states name rest fwd
    else objectForwardLoop neighbors states name rest fwd

/-- Result of handle_object_message: either the process aborted inside
add_to_cache, or the new cache state, new interest table, messages
written, and C return value. -/
inductive ObjectOutcome where
  | aborted : ObjectOutcome
  | ok : CacheState → List InterestEntry → List (Int × Msg) → Int → ObjectOutcome

/-- handle_object_message (network.c lines 1133-1256): look up the arrival
interface (interface 0 ignored), insert the name into the cache, drop the
message if no interest entry exists, otherwise forward OBJECT once per fd
to every RESPONSE interface (the local-UI interface, index
MAX_INTERFACE-1, is only reported locally) and remove the entry. -/
def handle_object_message (neighbors : List Neighbor) (cs : CacheState)
    (table : List InterestEntry) (fd : Int) (name : String) : ObjectOutcome :=
  match findNeighborByFd neighbors fd with
  | none => ObjectOutcome.ok cs table [] (-1)
  | some nb =>
    if nb.interfaceId = 0 then ObjectOutcome.ok cs table [] 0
    else
      match add_to_cache cs name with
      | CacheResult.aborted => ObjectOutcome.aborted
      | CacheResult.ok cs1 _ =>
        match table.find? (fun e => e.name == name) with
        | none => ObjectOutcome.ok cs1 table [] 0
        | some e =>
          let r := objectForwardLoop neighbors e.states name
            (List.range' 1 (MAX_INTERFACE - 1)) [fd]
          ObjectOutcome.ok cs1 (remove_interest_entry table name).1 r.2 0

/-- The NOOBJECT fan-out of check_interest_timeouts (network.c lines
1848-1867): for i = 1 .. MAX_INTERFACE-1, if interface i is RESPONSE, send
NOOBJECT to the (first) neighbor with that interface id. -/
def noobjectFanout (neighbors : List Neighbor) (e : InterestEntry) : List (Int × Msg) :=
  (List.range' 1 (MAX_INTERFACE - 1)).flatMap (fun i =>
    if e.states i = RESPONSE then
      match findNeighborByIface neighbors i with
      | some n => [(n.fd, Msg.noobject e.name)]
      | none => []
    else [])

/-- check_interest_timeouts (network.c lines 1818-1896): walk the interest
table; every entry with difftime(now, timestamp) > INTEREST_TIMEOUT gets
the NOOBJECT fan-out and is unlinked and freed; younger entries are kept
untouched. -/
def check_interest_timeouts (now : Int) (neighbors : List Neighbor) :
    List InterestEntry → List InterestEntry × List (Int × Msg)
  | [] => ([], [])
  | e :: rest =>
    let r := check_interest_timeouts now neighbors rest
    if now - e.timestamp > INTEREST_TIMEOUT then
      (r.1, noobjectFanout neighbors e ++ r.2)
    else (e :: r.1, r.2)

/-- A node that has not joined any network (the state after
initialize_node in main.c: empty external neighbor, empty safety node,
no neighbors). -/
def outsideNode : NodeState :=
  ⟨"10.0.0.1", "5000", "", "", "", "", false, 0, [], []⟩

/-- C1 scenario: a standalone node (in network 076, no external neighbor,
no safety node) that has accepted a connection on fd 7; the neighbor is
provisionally recorded with the accepted ephemeral port 51000. -/
def c1Node : NodeState :=
  ⟨"10.0.0.1", "5000", "", "", "", "", true, 76, [⟨"10.0.0.2", "51000", 7, 1⟩], []⟩

/-- C1 scenario, the joining side: node B (10.0.0.2:6000) whose external
neighbor is A (10.0.0.1:5000). -/
def c1NodeB : NodeState :=
  ⟨"10.0.0.2", "6000", "10.0.0.1", "5000", "", "", true, 76,
   [⟨"10.0.0.1", "5000", 9, 1⟩], []⟩

/-- C4 trace, step 1: add a first neighbor (fd 10). -/
def c4s1 : NodeState := add_neighbor outsideNode "10.0.0.2" "6001" 10 false

/-- C4 trace, step 2: add a second neighbor (fd 11). -/
def c4s2 : NodeState := add_neighbor c4s1 "10.0.0.3" "6002" 11 false

/-- C4 trace, step 3: remove the second neighbor (its socket closed). -/
def c4s3 : NodeState := (remove_neighbor c4s2 11 none true).1

/-- C4 trace, step 4: add a third neighbor (fd 12). -/
def c4s4 : NodeState := add_neighbor c4s3 "10.0.0.4" "6003" 12 false

/- ------------------------------------------------------------------ -/
/- Theorems.                                                           -/
/- ------------------------------------------------------------------ -/

/-- Claim C5 (code_bug exhibit): with cache capacity 0 and an empty cache,
add_to_cache does not leave the cache empty and return — it inserts the
name, trips its own final size check (current 1 > capacity 0) and
exit(EXIT_FAILURE)s the whole process. -/
theorem claim_C5 : add_to_cache ⟨[], 0, 0⟩ "alpha" = CacheResult.aborted := by
  decide

/-- Claim C6 counterexample: with store ["a"], publish "a" (a no-op since
"a" is already owned) followed by unpublish "a" yields the empty store,
not the prior store ["a"]; so publish;unpublish does not always return the
store to its prior state. -/
theorem claim_C6_counterexample :
    (remove_object (add_object ["a"] "a").1 "a").1 ≠ ["a"] := by
  decide

/-- Claim C6 (amended): if x is not already owned, publish(x) followed by
unpublish(x) returns the store to its prior state; and publish is
idempotent — publishing again leaves the store unchanged and reports
success (return 0). -/
theorem claim_C6_amended (objects : List String) (x : String) :
    (x ∉ objects → (remove_object (add_object objects x).1 x).1 = objects) ∧
    add_object (add_object objects x).1 x = ((add_object objects x).1, 0) := by
  constructor
  · intro hx
    simp [add_object, if_neg hx, remove_object]
  · by_cases hx : x ∈ objects
    · simp only [add_object, if_pos hx]
    · simp only [add_object, if_neg hx, if_pos (List.mem_cons_self x objects)]

/-- Claim C6 witness: instantiation of the amended claim at store ["b"]
and name "a". -/
theorem claim_C6_witness :
    ("a" ∉ ["b"] → (remove_object (add_object ["b"] "a").1 "a").1 = ["b"]) ∧
    add_object (add_object ["b"] "a").1 "a" = ((add_object ["b"] "a").1, 0) :=
  claim_C6_amended ["b"] "a"

/-- Claim C9: inserting the same (valid, ≤ 100 characters) name into the
cache twice equals inserting it once — whenever the first call returns
normally, the second call returns the very same cache state (same
contents, same size, same FIFO order, no eviction) with return value 0. -/
theorem claim_C9 (cs : CacheState) (name : String) (h1 : 0 < name.length)
    (h2 : name.length ≤ MAX_OBJECT_NAME) (cs2 : CacheState) (r : Int)
    (h : add_to_cache cs name = CacheResult.ok cs2 r) :
    add_to_cache cs2 name = CacheResult.ok cs2 0 := by
  have hne : ¬name.length = 0 := by omega
  have hmem : name ∈ cs2.cache := by
    unfold add_to_cache at h
    rw [if_neg hne] at h
    by_cases hc : name ∈ cs.cache
    · rw [if_pos hc] at h
      cases h
      exact hc
    · rw [if_neg hc] at h
      by_cases habort :
          cs.cacheSize < (evictLoop cs.cacheSize cs.cache cs.currentCacheSize).2 + 1
      · rw [if_pos habort] at h
        exact CacheResult.noConfusion h
      · rw [if_neg habort] at h
        cases h
        have : strncpy100 name = name := by
          unfold strncpy100
          rw [if_pos h2]
        simp [this]
  unfold add_to_cache
  rw [if_neg hne, if_pos hmem]

/-- Claim C9 witness: instantiation at the empty cache of capacity 4 and
name "a"; the first insert yields cache ["a"] of size 1, and the second
insert is a no-op on it. -/
theorem claim_C9_witness :
    add_to_cache ⟨["a"], 1, 4⟩ "a" = CacheResult.ok ⟨["a"], 1, 4⟩ 0 :=
  claim_C9 ⟨[], 0, 4⟩ "a" (by decide) (by decide) ⟨["a"], 1, 4⟩ 0 (by decide)

/-- Claim C1 (code_bug exhibit): a standalone node (empty external
neighbor) receiving ENTRY 10.0.0.2 6000 on fd 7 does set the sender as its
external neighbor and does reply with an ENTRY carrying its own listening
address, but the SAFE it sends carries the SENDER'S address (the external
neighbor was assigned before the emptiness test that selects the SAFE
payload, so the send-own-address branch is dead code) — not this node's
own address as the claim states; and on the other side a SAFE carrying the
receiver's own address makes that node its own safety neighbor, so in the
two-node scenario each node's safety neighbor ends up being itself, not
the other node. -/
theorem claim_C1 :
    (handle_entry_message c1Node 7 "10.0.0.2" "6000").2 =
      [(7, Msg.entry "10.0.0.1" "5000"), (7, Msg.safe "10.0.0.2" "6000")] ∧
    (handle_entry_message c1Node 7 "10.0.0.2" "6000").1.extNeighborIp = "10.0.0.2" ∧
    (handle_entry_message c1Node 7 "10.0.0.2" "6000").1.extNeighborPort = "6000" ∧
    Msg.safe "10.0.0.2" "6000" ≠ Msg.safe "10.0.0.1" "5000" ∧
    (handle_safe_message c1NodeB "10.0.0.2" "6000").safeNodeIp = c1NodeB.ip ∧
    (handle_safe_message c1NodeB "10.0.0.2" "6000").safeNodeIp ≠ "10.0.0.1" := by
  decide

/-- Claim C3 (code_bug exhibit): a join attempt that connects successfully
and then fails (registration timeout in process_nodeslist_response, or
ENTRY send failure in cmd_direct_join) returns -1 with in_network still
false, yet leaves the external-neighbor address set to the peer and the
peer's record in the neighbor list — partial state that violates the
claimed invariant. -/
theorem claim_C3 :
    ((process_nodeslist_join outsideNode 76 "1.2.3.4" "5000" (some 7) true false).2 = -1 ∧
     (process_nodeslist_join outsideNode 76 "1.2.3.4" "5000" (some 7) true false).1.inNetwork
       = false ∧
     (process_nodeslist_join outsideNode 76 "1.2.3.4" "5000" (some 7) true false).1.extNeighborIp
       = "1.2.3.4" ∧
     (process_nodeslist_join outsideNode 76 "1.2.3.4" "5000" (some 7) true false).1.neighbors.length
       = 1) ∧
    ((cmd_direct_join outsideNode "1.2.3.4" "5000" (some 7) false).2 = -1 ∧
     (cmd_direct_join outsideNode "1.2.3.4" "5000" (some 7) false).1.inNetwork = false ∧
     (cmd_direct_join outsideNode "1.2.3.4" "5000" (some 7) false).1.extNeighborIp
       = "1.2.3.4" ∧
     (cmd_direct_join outsideNode "1.2.3.4" "5000" (some 7) false).1.neighbors.length = 1) := by
  decide

/-- Claim C4 counterexample: add two neighbors (they get interface ids 1
and 2), remove the second, then add a third: it is assigned interface id 2
again — the id of a previously removed neighbor is reused, refuting
"never reused for the lifetime of the process". -/
theorem claim_C4_counterexample :
    (c4s2.neighbors.head?.map Neighbor.interfaceId) = some 2 ∧
    (c4s2.neighbors.head?.map Neighbor.fd) = some 11 ∧
    (c4s3.neighbors.all (fun n => n.fd != 11)) = true ∧
    (c4s4.neighbors.head?.map Neighbor.fd) = some 12 ∧
    (c4s4.neighbors.head?.map Neighbor.interfaceId) = some 2 := by
  decide

/-- One step of the id computation never decreases the running id. -/
theorem idStep_le (acc : Nat) (n : Neighbor) : acc ≤ idStep acc n := by
  unfold idStep
  split <;> omega

/-- The id computation of add_neighbor never decreases its accumulator. -/
theorem foldl_idStep_le : ∀ (l : List Neighbor) (acc : Nat), acc ≤ List.foldl idStep acc l
  | [], _ => Nat.le_refl _
  | n :: rest, acc =>
    Nat.le_trans (idStep_le acc n) (foldl_idStep_le rest (idStep acc n))

/-- Every neighbor currently in the list has a strictly smaller interface
id than the one the id computation of add_neighbor produces. -/
theorem foldl_idStep_mem : ∀ (l : List Neighbor) (acc : Nat),
    ∀ n ∈ l, n.interfaceId < List.foldl idStep acc l := by
  intro l
  induction l with
  | nil => intro acc n hn; cases hn
  | cons m rest ih =>
    intro acc n hn
    rcases List.mem_cons.mp hn with h | h
    · subst h
      have h1 : n.interfaceId < idStep acc n := by
        unfold idStep
        split <;> omega
      exact Nat.lt_of_lt_of_le h1 (foldl_idStep_le rest (idStep acc n))
    · exact ih (idStep acc m) n h

/-- Claim C4 (amended): the interface id assigned by add_neighbor is a
positive integer that differs from the id of every CURRENTLY present
neighbor (it is one more than the current maximum); ids of neighbors that
have been removed may be reassigned. -/
theorem claim_C4_amended (st : NodeState) (ip port : String) (fd : Int)
    (isExternal : Bool) :
    ∃ nb rest, (add_neighbor st ip port fd isExternal).neighbors = nb :: rest ∧
      rest = st.neighbors ∧ 1 ≤ nb.interfaceId ∧
      ∀ n ∈ st.neighbors, n.interfaceId ≠ nb.interfaceId := by
  refine ⟨⟨ip, port, fd, nextInterfaceId st.neighbors⟩, st.neighbors, ?_, rfl, ?_, ?_⟩
  · unfold add_neighbor
    cases isExternal <;> rfl
  · exact foldl_idStep_le st.neighbors 1
  · intro n hn
    exact Nat.ne_of_lt (foldl_idStep_mem st.neighbors 1 n hn)

/-- Claim C4 witness: instantiation of the amended claim at the one-
neighbor state c4s1; the new neighbor gets an id distinct from the id of
the present neighbor. -/
theorem claim_C4_witness :
    ∃ nb rest, (add_neighbor c4s1 "10.0.0.9" "7000" 20 false).neighbors = nb :: rest ∧
      rest = c4s1.neighbors ∧ 1 ≤ nb.interfaceId ∧
      ∀ n ∈ c4s1.neighbors, n.interfaceId ≠ nb.interfaceId :=
  claim_C4_amended c4s1 "10.0.0.9" "7000" 20 false

/-- If every neighbor has interface id 0 or the arrival id, the forwarding
loop of handle_interest_message does nothing. -/
theorem interestLoop_no_eligible (writeOk : Int → Bool) (name : String) (k : Nat) :
    ∀ (l : List Neighbor) (states : Nat → Int),
      (∀ n ∈ l, n.interfaceId = 0 ∨ n.interfaceId = k) →
      interestForwardLoop writeOk name k l states = (states, [], 0) := by
  intro l
  induction l with
  | nil => intro states _; rfl
  | cons m rest ih =>
    intro states h
    have hm := h m (List.mem_cons_self m rest)
    have hcond : ¬(0 < m.interfaceId ∧ m.interfaceId ≠ k) := by
      rcases hm with h0 | hk
      · rw [h0]
        simp
      · simp [hk]
    simp only [interestForwardLoop, if_neg hcond]
    exact ih states (fun n hn => h n (List.mem_cons_of_mem m hn))

/-- If some entry of the table has the given name, the first-match update
keeps an updated entry in the table. -/
theorem updateEntry_mem_of_exists :
    ∀ (l : List InterestEntry) (nm : String) (f : InterestEntry → InterestEntry),
      (∃ e ∈ l, e.name = nm) → ∃ e ∈ l, e.name = nm ∧ f e ∈ updateEntry l nm f := by
  intro l nm f
  induction l with
  | nil =>
    rintro ⟨e, he, _⟩
    cases he
  | cons a rest ih =>
    rintro ⟨e, he, hname⟩
    by_cases ha : a.name = nm
    · refine ⟨a, List.mem_cons_self a rest, ha, ?_⟩
      simp only [updateEntry, if_pos ha]
      exact List.mem_cons_self _ _
    · rcases List.mem_cons.mp he with rfl | hrest
      · exact absurd hname ha
      · obtain ⟨e2, he2, hn2, hmem2⟩ := ih ⟨e, hrest, hname⟩
        refine ⟨e2, List.mem_cons_of_mem a he2, hn2, ?_⟩
        simp only [updateEntry, if_neg ha]
        exact List.mem_cons_of_mem a hmem2

/-- Claim C2 counterexample: one neighbor (interface 1, fd 5), empty
object store, cache and interest table; INTEREST obj1 arrives on fd 5.
The node does reply NOOBJECT obj1 on fd 5, but contrary to the claim the
interest entry for obj1 is NOT deleted: it is still in the table when the
handler returns. -/
theorem claim_C2_counterexample :
    ((handle_interest_message 0 (fun _ => true) [⟨"10.0.0.2", "6000", 5, 1⟩]
        [] [] [] 5 "obj1").sends = [(5, Msg.noobject "obj1")]) ∧
    ((handle_interest_message 0 (fun _ => true) [⟨"10.0.0.2", "6000", 5, 1⟩]
        [] [] [] 5 "obj1").table.any (fun e => e.name == "obj1")) = true := by
  constructor
  · rfl
  · rfl

/-- Claim C2 (amended): when INTEREST name arrives on interface k > 0, the
name is neither owned nor cached, the entry for the name has no WAITING
interface, and no neighbor j with j > 0 and j ≠ k exists, the node replies
NOOBJECT name on k — but the PIT entry for the name REMAINS in the table
(with interface k in RESPONSE); it is not deleted by the handler (it is
only reaped later by the timeout sweep). -/
theorem claim_C2_amended (t : Int) (writeOk : Int → Bool) (neighbors : List Neighbor)
    (objects cache : List String) (table : List InterestEntry) (fd : Int)
    (name : String) (nb : Neighbor)
    (hfd : findNeighborByFd neighbors fd = some nb)
    (hk : nb.interfaceId ≠ 0)
    (hobj : name ∉ objects) (hcache : name ∉ cache)
    (hnow : ∀ e ∈ table, e.name = name → ∀ i, e.states i ≠ WAITING)
    (hnoj : ∀ n ∈ neighbors, n.interfaceId = 0 ∨ n.interfaceId = nb.interfaceId) :
    (handle_interest_message t writeOk neighbors objects cache table fd name).sends
        = [(fd, Msg.noobject name)] ∧
    ∃ e ∈ (handle_interest_message t writeOk neighbors objects cache table fd name).table,
      e.name = name ∧ e.states nb.interfaceId = RESPONSE := by
  have hbase : ∃ e0, (find_or_create_interest_entry t table name).find?
        (fun e => e.name == name) = some e0 ∧
      (∀ i, e0.states i ≠ WAITING) ∧
      (∃ e ∈ find_or_create_interest_entry t table name, e.name = name) := by
    unfold find_or_create_interest_entry
    by_cases hany : table.any (fun e => e.name == name) = true
    · rw [if_pos hany]
      cases hfind : table.find? (fun e => e.name == name) with
      | none =>
        rw [List.find?_eq_none] at hfind
        obtain ⟨e, he, hpe⟩ := List.any_eq_true.mp hany
        exact absurd hpe (hfind e he)
      | some e =>
        have hpe := List.find?_some hfind
        have hmem : e ∈ table := List.mem_of_find?_eq_some hfind
        have hname : e.name = name := by
          simpa using hpe
        exact ⟨e, rfl, hnow e hmem hname, e, hmem, hname⟩
    · rw [if_neg hany]
      have hp : ((freshEntry t name).name == name) = true := by
        simp [freshEntry]
      refine ⟨freshEntry t name, ?_, ?_, freshEntry t name, List.mem_cons_self _ _, rfl⟩
      · exact List.find?_cons_of_pos _ hp
      · intro i
        simp [freshEntry, WAITING]
  obtain ⟨e0, hfind0, hW0, hmem1⟩ := hbase
  have hnoW : ((List.range' 1 (MAX_INTERFACE - 1)).any
      (fun i => setState e0.states nb.interfaceId RESPONSE i == WAITING)) = false := by
    rw [List.any_eq_false]
    intro i _
    simp only [beq_iff_eq]
    unfold setState
    split
    · decide
    · exact hW0 i
  have hloop := interestLoop_no_eligible writeOk name nb.interfaceId neighbors
    (setState e0.states nb.interfaceId RESPONSE) hnoj
  unfold handle_interest_message
  rw [hfd]
  simp only [if_neg hk, if_neg hobj, if_neg hcache, hfind0, Option.getD_some, hnoW,
    Bool.false_eq_true, if_false, hloop, if_pos rfl, List.nil_append]
  refine ⟨rfl, ?_⟩
  obtain ⟨e2, he2, hn2, hmem2⟩ := updateEntry_mem_of_exists
    (find_or_create_interest_entry t table name) name
    (fun e => ⟨e.name, setState e0.states nb.interfaceId RESPONSE, e.timestamp,
      e.markedForRemoval⟩) hmem1
  refine ⟨_, hmem2, hn2, ?_⟩
  simp [setState]

/-- Claim C2 witness: instantiation of the amended claim with a single
neighbor on interface 1 (fd 5), empty stores and an empty table. -/
theorem claim_C2_witness :
    (handle_interest_message 0 (fun _ => true) [⟨"10.0.0.2", "6000", 5, 1⟩]
        [] [] [] 5 "obj1").sends = [(5, Msg.noobject "obj1")] ∧
    ∃ e ∈ (handle_interest_message 0 (fun _ => true) [⟨"10.0.0.2", "6000", 5, 1⟩]
        [] [] [] 5 "obj1").table,
      e.name = "obj1" ∧ e.states (1 : Nat) = RESPONSE :=
  claim_C2_amended 0 (fun _ => true) [⟨"10.0.0.2", "6000", 5, 1⟩] [] [] [] 5 "obj1"
    ⟨"10.0.0.2", "6000", 5, 1⟩ rfl (by decide) (by decide) (by decide)
    (by intro e he; cases he) (by decide)

/-- The object-forwarding loop writes each fd at most once, never writes
an fd that was already in the processed set, and only writes OBJECT name. -/
theorem objLoop_sends_spec (nbrs : List Neighbor) (states : Nat → Int) (name : String) :
    ∀ (idxs : List Nat) (fwd : List Int),
      ((objectForwardLoop nbrs states name idxs fwd).2.map Prod.fst).Nodup ∧
      ∀ p ∈ (objectForwardLoop nbrs states name idxs fwd).2,
        p.1 ∉ fwd ∧ p.2 = Msg.object name := by
  intro idxs
  induction idxs with
  | nil =>
    intro fwd
    constructor
    · simp [objectForwardLoop]
    · intro p hp
      simp [objectForwardLoop] at hp
  | cons i rest ih =>
    intro fwd
    by_cases hresp : states i = RESPONSE
    · cases hn : findNeighborByIface nbrs i with
      | some n =>
        by_cases hmem : n.fd ∈ fwd
        · simp only [objectForwardLoop, if_pos hresp, hn, if_pos hmem]
          exact ih fwd
        · simp only [objectForwardLoop, if_pos hresp, hn, if_neg hmem]
          obtain ⟨hnd, hfa⟩ := ih (n.fd :: fwd)
          constructor
          · simp only [List.map_cons]
            refine List.nodup_cons.mpr ⟨?_, hnd⟩
            intro hin
            obtain ⟨p, hp, hpe⟩ := List.mem_map.mp hin
            exact (hfa p hp).1 (by rw [hpe]; exact List.mem_cons_self _ _)
          · intro p hp
            rcases List.mem_cons.mp hp with rfl | hp2
            · exact ⟨hmem, rfl⟩
            · obtain ⟨h1, h2⟩ := hfa p hp2
              exact ⟨fun hq => h1 (List.mem_cons_of_mem _ hq), h2⟩
      | none =>
        simp only [objectForwardLoop, if_pos hresp, hn]
        exact ih fwd
    · simp only [objectForwardLoop, if_neg hresp]
      exact ih fwd

/-- Every RESPONSE interface with a connected neighbor is covered by the
object-forwarding loop: its fd was either already processed (initially the
source fd) or the loop writes OBJECT to it. -/
theorem objLoop_cover (nbrs : List Neighbor) (states : Nat → Int) (name : String) :
    ∀ (idxs : List Nat) (fwd : List Int) (i : Nat), i ∈ idxs → states i = RESPONSE →
      ∀ n, findNeighborByIface nbrs i = some n →
        n.fd ∈ fwd ∨ (n.fd, Msg.object name) ∈ (objectForwardLoop nbrs states name idxs fwd).2 := by
  intro idxs
  induction idxs with
  | nil =>
    intro fwd i hi
    cases hi
  | cons j rest ih =>
    intro fwd i hi hresp n hn
    rcases List.mem_cons.mp hi with rfl | hrest
    · simp only [objectForwardLoop, if_pos hresp, hn]
      by_cases hf : n.fd ∈ fwd
      · exact Or.inl hf
      · rw [if_neg hf]
        exact Or.inr (List.mem_cons_self _ _)
    · by_cases hj : states j = RESPONSE
      · cases hjn : findNeighborByIface nbrs j with
        | some m =>
          by_cases hmf : m.fd ∈ fwd
          · simp only [objectForwardLoop, if_pos hj, hjn, if_pos hmf]
            exact ih fwd i hrest hresp n hn
          · simp only [objectForwardLoop, if_pos hj, hjn, if_neg hmf]
            rcases ih (m.fd :: fwd) i hrest hresp n hn with hL | hR
            · rcases List.mem_cons.mp hL with heq | hmem
              · right
                rw [heq]
                exact List.mem_cons_self _ _
              · exact Or.inl hmem
            · exact Or.inr (List.mem_cons_of_mem _ hR)
        | none =>
          simp only [objectForwardLoop, if_pos hj, hjn]
          exact ih fwd i hrest hresp n hn
      · simp only [objectForwardLoop, if_neg hj]
        exact ih fwd i hrest hresp n hn

/-- When the table holds no two entries with the same name, the first-
match removal leaves no entry with the removed name. -/
theorem remove_entry_no_name (nm : String) :
    ∀ (l : List InterestEntry), (l.map InterestEntry.name).Nodup →
      ∀ e2 ∈ (remove_interest_entry l nm).1, e2.name ≠ nm := by
  intro l
  induction l with
  | nil =>
    intro _ e2 he2
    simp [remove_interest_entry] at he2
  | cons a rest ih =>
    intro hnodup e2 he2
    by_cases ha : a.name = nm
    · simp only [remove_interest_entry, if_pos ha] at he2
      have hnotin : a.name ∉ rest.map InterestEntry.name := (List.nodup_cons.mp hnodup).1
      intro heq
      apply hnotin
      rw [ha, ← heq]
      exact List.mem_map_of_mem InterestEntry.name he2
    · simp only [remove_interest_entry, if_neg ha] at he2
      rcases List.mem_cons.mp he2 with rfl | h2
      · exact ha
      · exact ih (List.nodup_cons.mp hnodup).2 e2 h2

/-- The eviction loop ends with a size strictly below capacity, or with
size 0 (the inconsistency reset). -/
theorem evictLoop_bound (cacheSize : Int) :
    ∀ (cache : List String) (cur : Int),
      (evictLoop cacheSize cache cur).2 < cacheSize ∨
      (evictLoop cacheSize cache cur).2 = 0 := by
  intro cache
  induction cache with
  | nil =>
    intro cur
    unfold evictLoop
    by_cases h : cur ≥ cacheSize
    · rw [if_pos h]
      exact Or.inr rfl
    · rw [if_neg h]
      exact Or.inl (lt_of_not_ge h)
  | cons x rest ih =>
    intro cur
    unfold evictLoop
    by_cases h : cur ≥ cacheSize
    · rw [if_pos h]
      exact ih (cur - 1)
    · rw [if_neg h]
      exact Or.inl (lt_of_not_ge h)

/-- With capacity at least 1, add_to_cache never aborts: it returns
normally and the (valid, ≤ 100 character) name is in the cache afterwards. -/
theorem add_to_cache_ok (cs : CacheState) (name : String) (hcap : 1 ≤ cs.cacheSize)
    (h1 : 0 < name.length) (h2 : name.length ≤ MAX_OBJECT_NAME) :
    ∃ cs1, add_to_cache cs name = CacheResult.ok cs1 0 ∧ name ∈ cs1.cache := by
  have hne : ¬name.length = 0 := by omega
  have hst : strncpy100 name = name := by
    unfold strncpy100
    rw [if_pos h2]
  by_cases hc : name ∈ cs.cache
  · refine ⟨cs, ?_, hc⟩
    unfold add_to_cache
    rw [if_neg hne, if_pos hc]
  · have hb := evictLoop_bound cs.cacheSize cs.cache cs.currentCacheSize
    have hno : ¬(cs.cacheSize <
        (evictLoop cs.cacheSize cs.cache cs.currentCacheSize).2 + 1) := by
      rcases hb with h | h <;> omega
    refine ⟨⟨(evictLoop cs.cacheSize cs.cache cs.currentCacheSize).1 ++ [name],
      (evictLoop cs.cacheSize cs.cache cs.currentCacheSize).2 + 1, cs.cacheSize⟩, ?_, ?_⟩
    · unfold add_to_cache
      rw [if_neg hne, if_neg hc]
      show (if cs.cacheSize < (evictLoop cs.cacheSize cs.cache cs.currentCacheSize).2 + 1
          then CacheResult.aborted
          else CacheResult.ok ⟨(evictLoop cs.cacheSize cs.cache cs.currentCacheSize).1
            ++ [strncpy100 name],
            (evictLoop cs.cacheSize cs.cache cs.currentCacheSize).2 + 1, cs.cacheSize⟩ 0) = _
      rw [if_neg hno, hst]
    · exact List.mem_append_right _ (List.mem_singleton.mpr rfl)

/-- Claim C7: on OBJECT name from interface k > 0 (with valid name,
capacity ≥ 1 so the cache insert returns, and a well-formed table with no
duplicate names): the name is inserted into the cache; if no PIT entry
for the name exists, nothing is sent and the table is unchanged; if one
exists, OBJECT name is sent at most once per socket fd (never back to the
source fd) to every RESPONSE interface that has a connected neighbor, and
the PIT entry for the name is deleted. -/
theorem claim_C7 (neighbors : List Neighbor) (cs : CacheState) (table : List InterestEntry)
    (fd : Int) (name : String) (nb : Neighbor)
    (hfd : findNeighborByFd neighbors fd = some nb)
    (hk : nb.interfaceId ≠ 0)
    (hlen1 : 0 < name.length) (hlen2 : name.length ≤ MAX_OBJECT_NAME)
    (hcap : 1 ≤ cs.cacheSize)
    (hnodup : (table.map InterestEntry.name).Nodup) :
    ∃ cs1 table1 sends,
      handle_object_message neighbors cs table fd name = ObjectOutcome.ok cs1 table1 sends 0 ∧
      name ∈ cs1.cache ∧
      (table.find? (fun e => e.name == name) = none → table1 = table ∧ sends = []) ∧
      (∀ e, table.find? (fun e2 => e2.name == name) = some e →
        (∀ e2 ∈ table1, e2.name ≠ name) ∧
        (sends.map Prod.fst).Nodup ∧
        (∀ p ∈ sends, p.2 = Msg.object name ∧ p.1 ≠ fd) ∧
        (∀ i ∈ List.range' 1 (MAX_INTERFACE - 1), e.states i = RESPONSE →
          ∀ n, findNeighborByIface neighbors i = some n →
            n.fd = fd ∨ (n.fd, Msg.object name) ∈ sends)) := by
  obtain ⟨cs1, hcins, hmemc⟩ := add_to_cache_ok cs name hcap hlen1 hlen2
  cases hfind : table.find? (fun e => e.name == name) with
  | none =>
    refine ⟨cs1, table, [], ?_, hmemc, fun _ => ⟨rfl, rfl⟩, ?_⟩
    · simp only [handle_object_message, hfd, hcins, hfind]
      rw [if_neg hk]
    · intro e he
      exact Option.noConfusion he
  | some e =>
    refine ⟨cs1, (remove_interest_entry table name).1,
      (objectForwardLoop neighbors e.states name
        (List.range' 1 (MAX_INTERFACE - 1)) [fd]).2, ?_, hmemc, ?_, ?_⟩
    · simp only [handle_object_message, hfd, hcins, hfind]
      rw [if_neg hk]
    · intro h
      exact Option.noConfusion h
    · intro e2 he2
      have he2e : e2 = e := (Option.some.inj he2).symm
      subst he2e
      obtain ⟨hnd, hfa⟩ := objLoop_sends_spec neighbors e2.states name
        (List.range' 1 (MAX_INTERFACE - 1)) [fd]
      refine ⟨remove_entry_no_name name table hnodup, hnd, ?_, ?_⟩
      · intro p hp
        obtain ⟨hpf, hpm⟩ := hfa p hp
        refine ⟨hpm, fun hq => hpf ?_⟩
        rw [hq]
        exact List.mem_singleton.mpr rfl
      · intro i hi hresp n hn
        rcases objLoop_cover neighbors e2.states name
            (List.range' 1 (MAX_INTERFACE - 1)) [fd] i hi hresp n hn with hL | hR
        · exact Or.inl (by simpa using hL)
        · exact Or.inr hR

/-- Claim C7 witness: instantiation with two neighbors (interfaces 1 and
2, fds 3 and 4), the object arriving on fd 3, capacity 4, and a table
holding a single fresh entry for the name. -/
theorem claim_C7_witness :
    ∃ cs1 table1 sends,
      handle_object_message [⟨"10.0.0.2", "6000", 3, 1⟩, ⟨"10.0.0.3", "6001", 4, 2⟩]
          ⟨[], 0, 4⟩ [⟨"x", fun _ => 0, 0, false⟩] 3 "x" =
        ObjectOutcome.ok cs1 table1 sends 0 ∧
      "x" ∈ cs1.cache ∧
      (([⟨"x", fun _ => 0, 0, false⟩] : List InterestEntry).find?
          (fun e => e.name == "x") = none → table1 = [⟨"x", fun _ => 0, 0, false⟩] ∧
          sends = []) ∧
      (∀ e, ([⟨"x", fun _ => 0, 0, false⟩] : List InterestEntry).find?
          (fun e2 => e2.name == "x") = some e →
        (∀ e2 ∈ table1, e2.name ≠ "x") ∧
        (sends.map Prod.fst).Nodup ∧
        (∀ p ∈ sends, p.2 = Msg.object "x" ∧ p.1 ≠ 3) ∧
        (∀ i ∈ List.range' 1 (MAX_INTERFACE - 1), e.states i = RESPONSE →
          ∀ n, findNeighborByIface
              [⟨"10.0.0.2", "6000", 3, 1⟩, ⟨"10.0.0.3", "6001", 4, 2⟩] i = some n →
            n.fd = 3 ∨ (n.fd, Msg.object "x") ∈ sends)) :=
  claim_C7 [⟨"10.0.0.2", "6000", 3, 1⟩, ⟨"10.0.0.3", "6001", 4, 2⟩] ⟨[], 0, 4⟩
    [⟨"x", fun _ => 0, 0, false⟩] 3 "x" ⟨"10.0.0.2", "6000", 3, 1⟩
    rfl (by decide) (by decide) (by decide) (by decide) (by decide)

/-- Claim C8: one sweep of check_interest_timeouts keeps exactly the
entries whose age does not exceed INTEREST_TIMEOUT (unchanged, in order),
removes every older entry, and for every removed entry sends NOOBJECT to
each of its RESPONSE interfaces that has a connected neighbor. -/
theorem claim_C8 (now : Int) (neighbors : List Neighbor) (table : List InterestEntry) :
    (check_interest_timeouts now neighbors table).1 =
      table.filter (fun e => decide (now - e.timestamp ≤ INTEREST_TIMEOUT)) ∧
    (check_interest_timeouts now neighbors table).2 =
      (table.filter (fun e => decide (INTEREST_TIMEOUT < now - e.timestamp))).flatMap
        (noobjectFanout neighbors) ∧
    (∀ e ∈ (check_interest_timeouts now neighbors table).1,
      now - e.timestamp ≤ INTEREST_TIMEOUT) ∧
    (∀ e ∈ table, INTEREST_TIMEOUT < now - e.timestamp →
      ∀ i ∈ List.range' 1 (MAX_INTERFACE - 1), e.states i = RESPONSE →
        ∀ n, findNeighborByIface neighbors i = some n →
          (n.fd, Msg.noobject e.name) ∈ (check_interest_timeouts now neighbors table).2) := by
  have main : ∀ (tb : List InterestEntry),
      (check_interest_timeouts now neighbors tb).1 =
        tb.filter (fun e => decide (now - e.timestamp ≤ INTEREST_TIMEOUT)) ∧
      (check_interest_timeouts now neighbors tb).2 =
        (tb.filter (fun e => decide (INTEREST_TIMEOUT < now - e.timestamp))).flatMap
          (noobjectFanout neighbors) := by
    intro tb
    induction tb with
    | nil => exact ⟨rfl, rfl⟩
    | cons e rest ih =>
      obtain ⟨ih1, ih2⟩ := ih
      by_cases hexp : now - e.timestamp > INTEREST_TIMEOUT
      · have hd1 : decide (now - e.timestamp ≤ INTEREST_TIMEOUT) = false :=
          decide_eq_false (by omega)
        have hd2 : decide (INTEREST_TIMEOUT < now - e.timestamp) = true :=
          decide_eq_true hexp
        constructor
        · simp only [check_interest_timeouts, if_pos hexp, List.filter_cons, hd1,
            Bool.false_eq_true, if_false]
          exact ih1
        · simp only [check_interest_timeouts, if_pos hexp, List.filter_cons, hd2,
            if_true, List.flatMap_cons]
          rw [ih2]
      · have hd1 : decide (now - e.timestamp ≤ INTEREST_TIMEOUT) = true :=
          decide_eq_true (by omega)
        have hd2 : decide (INTEREST_TIMEOUT < now - e.timestamp) = false :=
          decide_eq_false hexp
        constructor
        · simp only [check_interest_timeouts, if_neg hexp, List.filter_cons, hd1, if_true]
          rw [ih1]
        · simp only [check_interest_timeouts, if_neg hexp, List.filter_cons, hd2,
            Bool.false_eq_true, if_false]
          exact ih2
  obtain ⟨h1, h2⟩ := main table
  refine ⟨h1, h2, ?_, ?_⟩
  · intro e he
    rw [h1] at he
    exact of_decide_eq_true (List.mem_filter.mp he).2
  · intro e he hexp i hi hresp n hn
    rw [h2]
    apply List.mem_flatMap.mpr
    refine ⟨e, List.mem_filter.mpr ⟨he, decide_eq_true hexp⟩, ?_⟩
    unfold noobjectFanout
    apply List.mem_flatMap.mpr
    refine ⟨i, hi, ?_⟩
    rw [if_pos hresp, hn]
    exact List.mem_singleton.mpr rfl

/-- Claim C8 witness: with one neighbor on interface 1 (fd 3), an expired
entry for x (age 20) and a fresh entry for y (age 5), the sweep sends
NOOBJECT x to fd 3. -/
theorem claim_C8_witness :
    ((3 : Int), Msg.noobject "x") ∈
      (check_interest_timeouts 20 [⟨"10.0.0.2", "6000", 3, 1⟩]
        [⟨"x", fun _ => 0, 0, false⟩, ⟨"y", fun _ => 0, 15, false⟩]).2 :=
  (claim_C8 20 [⟨"10.0.0.2", "6000", 3, 1⟩]
      [⟨"x", fun _ => 0, 0, false⟩, ⟨"y", fun _ => 0, 15, false⟩]).2.2.2
    ⟨"x", fun _ => 0, 0, false⟩ (List.mem_cons_self _ _) (by decide)
    1 (by decide) rfl ⟨"10.0.0.2", "6000", 3, 1⟩ rfl

/-- Claim C10: a PIT entry freshly created by find_or_create_interest_entry
has every interface state initialized to 0, which is the enum encoding of
RESPONSE; consequently, when an OBJECT for that name arrives,
handle_object_message sends the object (once per fd, never back to the
source) to every currently connected neighbor interface — including
neighbors that never sent an INTEREST for that name. -/
theorem claim_C10 (t : Int) (nm : String) (neighbors : List Neighbor) (cs : CacheState)
    (table : List InterestEntry) (fd : Int) (e : InterestEntry) (nb : Neighbor)
    (hfresh : ∀ i, e.states i = RESPONSE)
    (hfind : table.find? (fun e2 => e2.name == nm) = some e)
    (hfd : findNeighborByFd neighbors fd = some nb)
    (hk : nb.interfaceId ≠ 0)
    (hlen1 : 0 < nm.length) (hlen2 : nm.length ≤ MAX_OBJECT_NAME)
    (hcap : 1 ≤ cs.cacheSize) :
    ((freshEntry t nm).states = fun _ => RESPONSE) ∧ RESPONSE = 0 ∧
    (∀ tb : List InterestEntry, tb.any (fun e2 => e2.name == nm) = false →
      find_or_create_interest_entry t tb nm = freshEntry t nm :: tb) ∧
    ∃ cs1 table1 sends,
      handle_object_message neighbors cs table fd nm = ObjectOutcome.ok cs1 table1 sends 0 ∧
      ∀ i ∈ List.range' 1 (MAX_INTERFACE - 1), ∀ n,
        findNeighborByIface neighbors i = some n →
          n.fd = fd ∨ (n.fd, Msg.object nm) ∈ sends := by
  refine ⟨rfl, rfl, ?_, ?_⟩
  · intro tb h
    unfold find_or_create_interest_entry
    rw [if_neg (by simp [h])]
  · obtain ⟨cs1, hcins, hmemc⟩ := add_to_cache_ok cs nm hcap hlen1 hlen2
    refine ⟨cs1, (remove_interest_entry table nm).1,
      (objectForwardLoop neighbors e.states nm
        (List.range' 1 (MAX_INTERFACE - 1)) [fd]).2, ?_, ?_⟩
    · simp only [handle_object_message, hfd, hcins, hfind]
      rw [if_neg hk]
    · intro i hi n hn
      rcases objLoop_cover neighbors e.states nm
          (List.range' 1 (MAX_INTERFACE - 1)) [fd] i hi (hfresh i) n hn with hL | hR
      · exact Or.inl (by simpa using hL)
      · exact Or.inr hR

/-- Claim C10 witness: instantiation with two neighbors (interfaces 1 and
2, fds 3 and 4); the OBJECT arrives on fd 3 and the neighbor on interface
2 — which never sent an INTEREST (the entry is fresh, all states 0) — is
covered: its fd is the source or it receives the object. -/
theorem claim_C10_witness :
    ((freshEntry 0 "x").states = fun _ => RESPONSE) ∧ RESPONSE = 0 ∧
    (∀ tb : List InterestEntry, tb.any (fun e2 => e2.name == "x") = false →
      find_or_create_interest_entry 0 tb "x" = freshEntry 0 "x" :: tb) ∧
    ∃ cs1 table1 sends,
      handle_object_message [⟨"10.0.0.2", "6000", 3, 1⟩, ⟨"10.0.0.3", "6001", 4, 2⟩]
          ⟨[], 0, 4⟩ [⟨"x", fun _ => 0, 0, false⟩] 3 "x" =
        ObjectOutcome.ok cs1 table1 sends 0 ∧
      ∀ i ∈ List.range' 1 (MAX_INTERFACE - 1), ∀ n,
        findNeighborByIface [⟨"10.0.0.2", "6000", 3, 1⟩, ⟨"10.0.0.3", "6001", 4, 2⟩] i
            = some n →
          n.fd = 3 ∨ (n.fd, Msg.object "x") ∈ sends :=
  claim_C10 0 "x" [⟨"10.0.0.2", "6000", 3, 1⟩, ⟨"10.0.0.3", "6001", 4, 2⟩] ⟨[], 0, 4⟩
    [⟨"x", fun _ => 0, 0, false⟩] 3 ⟨"x", fun _ => 0, 0, false⟩ ⟨"10.0.0.2", "6000", 3, 1⟩
    (fun _ => rfl) rfl rfl (by decide) (by decide) (by decide) (by decide)
